import Mathlib

/-!
Shallow embedding of the client-side delimited-data ingestion pipeline of
`src/frontend/src/App.tsx` (the `grid` branch of `handleFileUpload`, together
with `detectDelimiter` and the grid-row/grid-column construction), and proofs
of the specification's claims about it.

Modelling conventions:
* JavaScript strings are Lean `String`s; character-level operations
  (`split('\n')`, `trim()`, regex counting) are embedded as executable
  functions over `String.data`.
* The delimiter, a single-character JavaScript string in the source
  (`'|'` or `','`), is modelled as a `Char`.
* JavaScript numbers produced by `parseInt`/`parseFloat` are modelled
  exactly: integers as `Int`, finite floats as `Rat`, with distinguished
  `NaN` and signed-infinity values.  No claim below depends on the rounding
  of IEEE doubles, only on the null/NaN/number/string classification of
  cell values.
* Unicode lower-casing (`toLowerCase`) is modelled by `Char.toLower`,
  which agrees with JavaScript on the ASCII range exercised here.
-/

namespace RexDB

/-- The characters matched by the JavaScript whitespace class `\s`, which is
also the set stripped by `String.prototype.trim`. -/
def isJsWhitespace (c : Char) : Bool :=
  c = ' ' || c = '\t' || c = '\n' || c = '\r' || c = '\x0b' || c = '\x0c' ||
  c = '\u00A0' || c = '\u1680' || ('\u2000' ≤ c && c ≤ '\u200A') ||
  c = '\u2028' || c = '\u2029' || c = '\u202F' || c = '\u205F' ||
  c = '\u3000' || c = '\uFEFF'

/-- JavaScript `String.prototype.split` with a single-character separator,
acting on the character list of a string.  Like in JavaScript, the result is
never empty: the empty string splits to `[[]]`. -/
def splitOnCharAt (sep : Char) : List Char → List (List Char)
  | [] => [[]]
  | c :: rest =>
    match splitOnCharAt sep rest with
    | [] => [[]]
    | h :: t => if c = sep then [] :: h :: t else (c :: h) :: t

/-- JavaScript `s.split(sep)` for a single-character separator `sep`. -/
def jsSplit (sep : Char) (s : String) : List String :=
  (splitOnCharAt sep s.data).map (fun cs => String.mk cs)

/-- JavaScript `s.trim()`: drop leading and trailing `\s` characters. -/
def jsTrim (s : String) : String :=
  String.mk (((s.data.dropWhile isJsWhitespace).reverse.dropWhile isJsWhitespace).reverse)

/-- The number of occurrences of character `c` in `s`, as computed by
`(s.match(/c/g) || []).length` in the source. -/
def countChar (c : Char) (s : String) : Nat :=
  s.data.count c

/-- `detectDelimiter` from `App.tsx`: examine the first line of the raw text
(`content.split('\n')[0]`), count pipes and commas, and return the pipe
delimiter exactly when pipes strictly outnumber commas. -/
def detectDelimiter (content : String) : Char :=
  let firstLine := (jsSplit '\n' content).headD ""
  if countChar '|' firstLine > countChar ',' firstLine then '|' else ','

/-- The first line of a string, characterised independently of `jsSplit`:
everything up to (excluding) the first line feed. -/
def firstLineOf (s : String) : String :=
  String.mk (s.data.takeWhile (fun c => !(c = '\n')))

theorem splitOnCharAt_ne_nil (sep : Char) (cs : List Char) :
    splitOnCharAt sep cs ≠ [] := by
  cases cs with
  | nil => simp [splitOnCharAt]
  | cons c rest =>
    simp only [splitOnCharAt]
    rcases h : splitOnCharAt sep rest with _ | ⟨h₁, t⟩
    · simp
    · by_cases hc : c = sep <;> simp [hc]

theorem length_splitOnCharAt (sep : Char) (cs : List Char) :
    (splitOnCharAt sep cs).length = cs.count sep + 1 := by
  induction cs with
  | nil => simp [splitOnCharAt]
  | cons c rest ih =>
    simp only [splitOnCharAt]
    rcases h : splitOnCharAt sep rest with _ | ⟨h₁, t⟩
    · exact absurd h (splitOnCharAt_ne_nil sep rest)
    · by_cases hc : c = sep
      · subst hc
        simp_all [List.count_cons]
      · simp_all [List.count_cons, hc]

theorem headD_splitOnCharAt (sep : Char) (cs : List Char) :
    (splitOnCharAt sep cs).headD [] = cs.takeWhile (fun c => !(c = sep)) := by
  induction cs with
  | nil => simp [splitOnCharAt]
  | cons c rest ih =>
    simp only [splitOnCharAt]
    rcases h : splitOnCharAt sep rest with _ | ⟨h₁, t⟩
    · exact absurd h (splitOnCharAt_ne_nil sep rest)
    · by_cases hc : c = sep
      · subst hc; simp [List.takeWhile]
      · simp only [hc, if_false, List.headD_cons, List.takeWhile]
        have : (splitOnCharAt sep rest).headD [] = h₁ := by rw [h]; rfl
        simp_all

theorem jsSplit_headD (sep : Char) (s : String) :
    (jsSplit sep s).headD "" = String.mk (s.data.takeWhile (fun c => !(c = sep))) := by
  unfold jsSplit
  rcases h : splitOnCharAt sep s.data with _ | ⟨h₁, t⟩
  · exact absurd h (splitOnCharAt_ne_nil sep s.data)
  · have := headD_splitOnCharAt sep s.data
    rw [h] at this
    simp only [List.map_cons, List.headD_cons]
    rw [← this]; rfl

/-- `handleFileUpload`, grid branch: all rows of the text, each line trimmed
and empty lines discarded (`text.split('\n').map(trim).filter(length > 0)`). -/
def allRows (text : String) : List String :=
  ((jsSplit '\n' text).map jsTrim).filter (fun row => row.length > 0)

/-- The row tokenizer with its empty-input check: `handleFileUpload` throws
`new Error('File is empty')` when no non-empty line remains. -/
def tokenizeRows (text : String) : Except String (List String) :=
  let rows := allRows text
  if rows.isEmpty then Except.error "File is empty" else Except.ok rows

/-- The canonical headers: the first surviving row split on the detected
delimiter, each field trimmed (`allRows[0].split(delimiter).map(trim)`). -/
def headersOf (text : String) : List String :=
  (jsSplit (detectDelimiter text) ((allRows text).headD "")).map jsTrim

/-- The sample handed to the schema-inference client:
`allRows.slice(0, 5).join('\n')`. -/
def sampleDataOf (text : String) : String :=
  String.intercalate "\n" ((allRows text).take 5)

/-- One entry of the schema returned by the inference service. -/
structure ColumnSchema where
  name : String
  type : String
  description : String
deriving DecidableEq

/-- The parsed inference response: `{ columns: [{name, type, description}] }`. -/
structure SchemaResponse where
  columns : List ColumnSchema
deriving DecidableEq

/-- Header-key normalization, `s.toLowerCase().replace(/[_\s]/g, '')`:
lowercase, then delete every underscore and whitespace character. -/
def normalizeKey (s : String) : String :=
  String.mk ((s.data.map Char.toLower).filter (fun c => !(c = '_' || isJsWhitespace c)))

/-- Lookup in the `schemaMap` built by
`new Map(schema.columns.map(col => [normalize(col.name), col]))`.
A JavaScript `Map` constructed from a pair list keeps the last entry written
for a duplicated key, hence `getLast?` over the matching entries. -/
def schemaLookup (cols : List ColumnSchema) (key : String) : Option ColumnSchema :=
  (cols.filter (fun c => normalizeKey c.name = key)).getLast?

/-- The schema entry resolved for a header (`schemaMap.get(normalizedHeader)`),
projected to its type string (`schemaCol?.type`). -/
def resolvedType (cols : List ColumnSchema) (header : String) : Option String :=
  (schemaLookup cols (normalizeKey header)).map (fun c => c.type)

/-- The configuration of the `Intl.NumberFormat` display formatter attached to
numeric columns; the formatter closure is represented by its parameters. -/
structure NumberFormatConfig where
  locale : String
  maximumFractionDigits : Nat
  minimumFractionDigits : Nat
  style : String
deriving DecidableEq

def numericFormat : NumberFormatConfig :=
  { locale := "en-IN", maximumFractionDigits := 2, minimumFractionDigits := 0,
    style := "decimal" }

/-- A grid column descriptor as assembled in `handleFileUpload`;
`valueFormatter = none` means the column has no numeric display formatter. -/
structure GridColumn where
  field : String
  headerName : String
  type : String
  sortable : Bool
  resizable : Bool
  enableValue : Bool
  width : Nat
  filter : String
  valueFormatter : Option NumberFormatConfig
  aggFunc : Option String
  allowedAggFuncs : List String
deriving DecidableEq

/-- `schemaCol?.type || 'TEXT'`: the type string written into the base
config, with JavaScript falsiness turning a missing entry or an empty type
string into `TEXT`. -/
def colTypeOf (cols : List ColumnSchema) (header : String) : String :=
  match schemaLookup cols (normalizeKey header) with
  | some c => if c.type = "" then "TEXT" else c.type
  | none => "TEXT"

/-- `headers.map(header => ...)` body building one grid column: the base
config, `type: schemaCol?.type || 'TEXT'`, and the numeric additions exactly
when the resolved type is INTEGER or NUMERIC. -/
def mkGridColumn (cols : List ColumnSchema) (header : String) : GridColumn :=
  if resolvedType cols header = some "INTEGER" ∨ resolvedType cols header = some "NUMERIC" then
    { field := header, headerName := header, type := colTypeOf cols header,
      sortable := true, resizable := true, enableValue := true, width := 150,
      filter := "agNumberColumnFilter", valueFormatter := some numericFormat,
      aggFunc := some "sum",
      allowedAggFuncs := ["sum", "avg", "min", "max", "count"] }
  else
    { field := header, headerName := header, type := colTypeOf cols header,
      sortable := true, resizable := true, enableValue := true, width := 150,
      filter := "agTextColumnFilter", valueFormatter := none,
      aggFunc := none, allowedAggFuncs := [] }

/-- A JavaScript value stored in a grid cell: `null`, `NaN`, an integer from
`parseInt`, a finite number from `parseFloat` (modelled exactly as a
rational), a signed infinity, or a string. -/
inductive JsValue where
  | vNull
  | vNaN
  | vInt (n : Int)
  | vNum (q : Rat)
  | vInf (positive : Bool)
  | vStr (s : String)
deriving DecidableEq

/-- The numeric value of a list of decimal digits, most significant first. -/
def digitsToNat (ds : List Char) : Nat :=
  ds.foldl (fun acc c => 10 * acc + (c.toNat - '0'.toNat)) 0

/-- JavaScript `parseInt(s, 10)`: skip leading whitespace, read an optional
sign, then the longest prefix of decimal digits; `NaN` when no digit follows,
otherwise the signed integer value of that prefix. -/
def parseIntJs (s : String) : JsValue :=
  let cs := s.data.dropWhile isJsWhitespace
  let signed : Int × List Char :=
    match cs with
    | '-' :: rest => (-1, rest)
    | '+' :: rest => (1, rest)
    | rest => (1, rest)
  let ds := signed.2.takeWhile Char.isDigit
  if ds.isEmpty then JsValue.vNaN
  else JsValue.vInt (signed.1 * (digitsToNat ds : Int))

/-- The value of the optional exponent part recognised by `parseFloat` at the
given position: `e`/`E`, an optional sign, then digits; `0` when the text at
this position is not a valid exponent (it is then simply not consumed). -/
def expValue (cs : List Char) : Int :=
  match cs with
  | c :: rest =>
    if c = 'e' ∨ c = 'E' then
      let signed : Int × List Char :=
        match rest with
        | '-' :: r => (-1, r)
        | '+' :: r => (1, r)
        | r => (1, r)
      let ds := signed.2.takeWhile Char.isDigit
      if ds.isEmpty then 0 else signed.1 * (digitsToNat ds : Int)
    else 0
  | [] => 0

/-- `10 ^ e` as a rational, for a possibly negative exponent. -/
def tenPow (e : Int) : Rat :=
  if 0 ≤ e then ((10 : Rat) ^ e.toNat) else 1 / ((10 : Rat) ^ (-e).toNat)

/-- JavaScript `parseFloat(s)`: skip leading whitespace, read an optional
sign, then the longest prefix that is `Infinity` or a decimal literal
(digits, an optional point with further digits, an optional exponent);
`NaN` when no such prefix exists.  The numeric value is modelled exactly. -/
def parseFloatJs (s : String) : JsValue :=
  let cs := s.data.dropWhile isJsWhitespace
  let signed : Int × List Char :=
    match cs with
    | '-' :: rest => (-1, rest)
    | '+' :: rest => (1, rest)
    | rest => (1, rest)
  if "Infinity".data.isPrefixOf signed.2 then JsValue.vInf (signed.1 = 1)
  else
    let intDigits := signed.2.takeWhile Char.isDigit
    let afterInt := signed.2.drop intDigits.length
    let fracDigits : List Char :=
      match afterInt with
      | '.' :: r => r.takeWhile Char.isDigit
      | _ => []
    let afterFrac : List Char :=
      match afterInt with
      | '.' :: r => r.drop (r.takeWhile Char.isDigit).length
      | _ => afterInt
    if intDigits.isEmpty ∧ fracDigits.isEmpty then JsValue.vNaN
    else
      let mantissa : Rat :=
        (digitsToNat intDigits : Rat) +
          (digitsToNat fracDigits : Rat) / ((10 : Rat) ^ fracDigits.length)
      JsValue.vNum ((signed.1 : Rat) * mantissa * tenPow (expValue afterFrac))

/-- The raw field string for position `idx`:
`values[idx]?.trim() || ''` — empty string when the row ran short. -/
def rawCell (values : List String) (idx : Nat) : String :=
  ((values[idx]?).map jsTrim).getD ""

/-- Cell coercion from the `gridRows` construction: INTEGER columns parse a
base-10 integer with empty text giving `null`; NUMERIC columns parse a float
with empty text giving `null`; every other column stores the trimmed raw
string.  The function is total: coercion never throws. -/
def coerceCell (cols : List ColumnSchema) (header : String) (values : List String)
    (idx : Nat) : JsValue :=
  if resolvedType cols header = some "INTEGER" then
    (if rawCell values idx = "" then JsValue.vNull else parseIntJs (rawCell values idx))
  else if resolvedType cols header = some "NUMERIC" then
    (if rawCell values idx = "" then JsValue.vNull else parseFloatJs (rawCell values idx))
  else JsValue.vStr (rawCell values idx)

/-- A grid row: a JavaScript object modelled as an insertion-ordered
association list with unique keys. -/
abbrev GridRow := List (String × JsValue)

/-- JavaScript property assignment `obj[key] = v`: overwrite in place when the
key exists, append otherwise. -/
def objSet (obj : GridRow) (key : String) (v : JsValue) : GridRow :=
  if obj.any (fun p => p.1 = key) then
    obj.map (fun p => if p.1 = key then (key, v) else p)
  else obj ++ [(key, v)]

/-- Property read `row[key]`, `none` when the key is absent. -/
def lookupKey (row : GridRow) (key : String) : Option JsValue :=
  (row.find? (fun p => p.1 = key)).map (fun p => p.2)

/-- The `headers.reduce((obj, header, idx) => ..., {})` loop of the row
materializer, with the running index made explicit. -/
def mkGridRowAux (cols : List ColumnSchema) (values : List String) :
    List String → Nat → GridRow → GridRow
  | [], _, obj => obj
  | header :: rest, idx, obj =>
      mkGridRowAux cols values rest (idx + 1)
        (objSet obj header (coerceCell cols header values idx))

/-- One materialized grid row, built from the split fields of a data row. -/
def mkGridRow (cols : List ColumnSchema) (headers : List String)
    (values : List String) : GridRow :=
  mkGridRowAux cols values headers 0 []

/-- `gridColumns`: one column descriptor per header. -/
def gridColumnsOf (text : String) (schema : SchemaResponse) : List GridColumn :=
  (headersOf text).map (mkGridColumn schema.columns)

/-- `gridRows`: every surviving row after the header, split on the delimiter
and materialized against the headers. -/
def gridRowsOf (text : String) (schema : SchemaResponse) : List GridRow :=
  ((allRows text).drop 1).map
    (fun row => mkGridRow schema.columns (headersOf text)
      (jsSplit (detectDelimiter text) row))

/-- The terminal artifact passed to `setGridData`. -/
structure TypedGrid where
  columns : List GridColumn
  data : List GridRow
  schema : SchemaResponse
deriving DecidableEq

/-- The full grid-mode pipeline for a fixed (mocked) inference response:
detect the delimiter, tokenize, fail on empty input, and otherwise
materialize the typed grid. -/
def buildGrid (text : String) (schema : SchemaResponse) : Except String TypedGrid :=
  match tokenizeRows text with
  | Except.error e => Except.error e
  | Except.ok _ =>
      Except.ok
        { columns := gridColumnsOf text schema, data := gridRowsOf text schema,
          schema := schema }

/-- C3: for every input text, the delimiter detector returns exactly one of
comma or pipe, and it returns pipe exactly when the pipe count of the first
line of the raw text strictly exceeds its comma count (so in particular a
first line with zero of both yields the comma default), the decision
depending only on the first line. -/
theorem detectDelimiter_spec (t : String) :
    (detectDelimiter t = ',' ∨ detectDelimiter t = '|') ∧
    (detectDelimiter t = '|' ↔ countChar ',' (firstLineOf t) < countChar '|' (firstLineOf t)) := by
  have hline : (jsSplit '\n' t).headD "" = firstLineOf t := jsSplit_headD '\n' t
  unfold detectDelimiter
  rw [hline]
  by_cases h : countChar ',' (firstLineOf t) < countChar '|' (firstLineOf t)
  · simp [h]
  · rw [if_neg h]
    refine ⟨Or.inl rfl, ?_⟩
    constructor
    · intro he
      exact absurd he (by decide)
    · intro hc
      exact absurd hc h

theorem string_eq_empty_iff (s : String) : s = "" ↔ s.data = [] := by
  constructor
  · intro h; subst h; rfl
  · intro h
    cases s with
    | mk data => exact congrArg String.mk h

theorem string_length_zero_iff (s : String) : s.length = 0 ↔ s = "" := by
  rw [string_eq_empty_iff, ← List.length_eq_zero]
  rfl

/-- C6: the row tokenizer raises the empty-input error `File is empty` if and
only if every line of the input trims to the empty string, i.e. zero
non-empty lines remain after trimming; with at least one non-empty line no
such error is raised. -/
theorem tokenizeRows_empty_error_iff (t : String) :
    tokenizeRows t = Except.error "File is empty" ↔
      ∀ line ∈ jsSplit '\n' t, jsTrim line = "" := by
  have hfilter : allRows t = [] ↔ ∀ line ∈ jsSplit '\n' t, jsTrim line = "" := by
    unfold allRows
    rw [List.filter_eq_nil_iff]
    constructor
    · intro h line hline
      have := h (jsTrim line) (List.mem_map_of_mem _ hline)
      simp only [decide_eq_true_eq, not_lt, Nat.le_zero] at this
      exact (string_length_zero_iff _).mp this
    · intro h x hx
      rcases List.mem_map.mp hx with ⟨line, hline, rfl⟩
      rw [h line hline]
      decide
  rw [← hfilter]
  unfold tokenizeRows
  by_cases h : allRows t = []
  · simp [h]
  · simp [h, List.isEmpty_iff]

/-- C7: for every input with at least one non-empty line, the header array
has as many entries as the first surviving row has delimiter-separated
fields (one more than its delimiter count), and the data-row array has one
entry per non-empty line after the first. -/
theorem tokenizer_header_and_row_counts (t : String) (schema : SchemaResponse)
    (h : allRows t ≠ []) :
    (headersOf t).length = countChar (detectDelimiter t) ((allRows t).headD "") + 1 ∧
    (gridRowsOf t schema).length = (allRows t).length - 1 := by
  constructor
  · unfold headersOf countChar jsSplit
    rw [List.length_map, List.length_map]
    exact length_splitOnCharAt _ _
  · unfold gridRowsOf
    rw [List.length_map, List.length_drop]

/-- Witness for `tokenizer_header_and_row_counts` at a concrete input. -/
theorem tokenizer_header_and_row_counts_witness :
    (headersOf "a,b\n1,2\n3,4").length =
      countChar (detectDelimiter "a,b\n1,2\n3,4") ((allRows "a,b\n1,2\n3,4").headD "") + 1 ∧
    (gridRowsOf "a,b\n1,2\n3,4" ⟨[]⟩).length = (allRows "a,b\n1,2\n3,4").length - 1 :=
  tokenizer_header_and_row_counts "a,b\n1,2\n3,4" ⟨[]⟩ (by decide)

/-- C5: header-key normalization lowercases and strips underscores and
whitespace, so `Customer ID`, `customer_id` and `CUSTOMERID` all normalize
to the key `customerid` and hence resolve to the same schema entry in any
schema map, and mapping normalization over a list of names commutes with
permutation (order independence); determinism is inherent, `normalizeKey`
being a function of the string alone. -/
theorem normalizeKey_spec (names other : List String) (h : names.Perm other) :
    normalizeKey "Customer ID" = "customerid" ∧
    normalizeKey "customer_id" = "customerid" ∧
    normalizeKey "CUSTOMERID" = "customerid" ∧
    (∀ cols : List ColumnSchema,
      schemaLookup cols (normalizeKey "Customer ID") =
        schemaLookup cols (normalizeKey "customer_id") ∧
      schemaLookup cols (normalizeKey "customer_id") =
        schemaLookup cols (normalizeKey "CUSTOMERID")) ∧
    (names.map normalizeKey).Perm (other.map normalizeKey) := by
  have e1 : normalizeKey "Customer ID" = normalizeKey "customer_id" := by decide
  have e2 : normalizeKey "customer_id" = normalizeKey "CUSTOMERID" := by decide
  exact ⟨by decide, by decide, by decide,
    fun cols => ⟨by rw [e1], by rw [e2]⟩, h.map normalizeKey⟩

/-- Witness for `normalizeKey_spec` at a concrete permutation. -/
theorem normalizeKey_spec_witness :
    normalizeKey "Customer ID" = "customerid" :=
  (normalizeKey_spec ["Customer ID", "age"] ["age", "Customer ID"] (by decide)).1

/-- C9: the grid pipeline is a deterministic function of the input text and
the (mocked) inference response: two runs on equal inputs produce deep-equal
typed grids. -/
theorem pipeline_deterministic (t₁ t₂ : String) (s₁ s₂ : SchemaResponse)
    (ht : t₁ = t₂) (hs : s₁ = s₂) :
    buildGrid t₁ s₁ = buildGrid t₂ s₂ := by
  subst ht
  subst hs
  rfl

/-- Witness for `pipeline_deterministic` at a concrete input. -/
theorem pipeline_deterministic_witness :
    buildGrid "name,age\nAlice,30" ⟨[⟨"age", "INTEGER", ""⟩]⟩ =
      buildGrid "name,age\nAlice,30" ⟨[⟨"age", "INTEGER", ""⟩]⟩ :=
  pipeline_deterministic _ _ _ _ rfl rfl

/-- C8: a header's column configuration is decided solely by its resolved
schema type: the numeric filter, the grouping formatter with at most two and
at least zero fraction digits, the aggregation whitelist
`sum/avg/min/max/count` and default aggregation `sum` appear exactly when
the resolved type string is INTEGER or NUMERIC; every other resolved type —
TEXT, DATE, TIMESTAMP, an out-of-set string passed through unchanged, or no
schema match at all — yields the text filter with no numeric formatting and
no aggregation. -/
theorem gridColumn_type_dichotomy (cols : List ColumnSchema) (header : String) :
    ((resolvedType cols header = some "INTEGER" ∨
        resolvedType cols header = some "NUMERIC") ↔
      ((mkGridColumn cols header).filter = "agNumberColumnFilter" ∧
       (mkGridColumn cols header).valueFormatter = some numericFormat ∧
       (mkGridColumn cols header).aggFunc = some "sum" ∧
       (mkGridColumn cols header).allowedAggFuncs =
         ["sum", "avg", "min", "max", "count"])) ∧
    ((resolvedType cols header ≠ some "INTEGER" ∧
        resolvedType cols header ≠ some "NUMERIC") ↔
      ((mkGridColumn cols header).filter = "agTextColumnFilter" ∧
       (mkGridColumn cols header).valueFormatter = none ∧
       (mkGridColumn cols header).aggFunc = none ∧
       (mkGridColumn cols header).allowedAggFuncs = [])) ∧
    numericFormat.maximumFractionDigits = 2 ∧
    numericFormat.minimumFractionDigits = 0 := by
  by_cases h : resolvedType cols header = some "INTEGER" ∨
      resolvedType cols header = some "NUMERIC"
  · have hf1 : (mkGridColumn cols header).filter = "agNumberColumnFilter" := by
      unfold mkGridColumn
      rw [if_pos h]
    have hf2 : (mkGridColumn cols header).valueFormatter = some numericFormat := by
      unfold mkGridColumn
      rw [if_pos h]
    have hf3 : (mkGridColumn cols header).aggFunc = some "sum" := by
      unfold mkGridColumn
      rw [if_pos h]
    have hf4 : (mkGridColumn cols header).allowedAggFuncs =
        ["sum", "avg", "min", "max", "count"] := by
      unfold mkGridColumn
      rw [if_pos h]
    refine ⟨⟨fun _ => ⟨hf1, hf2, hf3, hf4⟩, fun _ => h⟩, ⟨?_, ?_⟩, rfl, rfl⟩
    · intro hne
      rcases h with h | h
      · exact absurd h hne.1
      · exact absurd h hne.2
    · intro hcontra
      exact absurd (hf1.symm.trans hcontra.1) (by decide)
  · have ht1 : (mkGridColumn cols header).filter = "agTextColumnFilter" := by
      unfold mkGridColumn
      rw [if_neg h]
    have ht2 : (mkGridColumn cols header).valueFormatter = none := by
      unfold mkGridColumn
      rw [if_neg h]
    have ht3 : (mkGridColumn cols header).aggFunc = none := by
      unfold mkGridColumn
      rw [if_neg h]
    have ht4 : (mkGridColumn cols header).allowedAggFuncs = [] := by
      unfold mkGridColumn
      rw [if_neg h]
    refine ⟨⟨fun hor => absurd hor h,
      fun hcontra => absurd (ht1.symm.trans hcontra.1) (by decide)⟩,
      ⟨fun _ => ⟨ht1, ht2, ht3, ht4⟩, fun _ => not_or.mp h⟩, rfl, rfl⟩

theorem mem_keys_objSet (obj : GridRow) (key k : String) (v : JsValue) :
    k ∈ (objSet obj key v).map Prod.fst ↔ k = key ∨ k ∈ obj.map Prod.fst := by
  unfold objSet
  by_cases h : obj.any (fun p => p.1 = key)
  · rw [if_pos h]
    have keys_eq : (obj.map (fun p => if p.1 = key then (key, v) else p)).map Prod.fst =
        obj.map Prod.fst := by
      rw [List.map_map]
      apply List.map_congr_left
      intro p _
      by_cases hp : p.1 = key
      · simp [hp]
      · simp [hp]
    rw [keys_eq]
    constructor
    · exact Or.inr
    · intro hor
      rcases hor with rfl | hk
      · rcases List.any_eq_true.mp h with ⟨p, hp, hpk⟩
        have : p.1 = k := of_decide_eq_true hpk
        rw [← this]
        exact List.mem_map_of_mem _ hp
      · exact hk
  · rw [if_neg h]
    rw [List.map_append]
    simp [or_comm]

theorem isSome_option_map {α β : Type} (f : α → β) (o : Option α) :
    (o.map f).isSome = o.isSome := by
  cases o <;> rfl

theorem lookupKey_isSome_iff (row : GridRow) (k : String) :
    (lookupKey row k).isSome = true ↔ k ∈ row.map Prod.fst := by
  unfold lookupKey
  rw [isSome_option_map]
  rw [List.find?_isSome]
  constructor
  · rintro ⟨p, hp, hpk⟩
    have : p.1 = k := of_decide_eq_true hpk
    rw [← this]
    exact List.mem_map_of_mem _ hp
  · intro hk
    rcases List.mem_map.mp hk with ⟨p, hp, rfl⟩
    exact ⟨p, hp, by simp⟩

theorem mem_keys_mkGridRowAux (cols : List ColumnSchema) (values : List String)
    (headers : List String) (idx : Nat) (obj : GridRow) (k : String) :
    k ∈ (mkGridRowAux cols values headers idx obj).map Prod.fst ↔
      k ∈ headers ∨ k ∈ obj.map Prod.fst := by
  induction headers generalizing idx obj with
  | nil => simp [mkGridRowAux]
  | cons hd rest ih =>
    simp only [mkGridRowAux]
    rw [ih, mem_keys_objSet, List.mem_cons]
    tauto

theorem coerceCell_take (cols : List ColumnSchema) (header : String)
    (values : List String) (n idx : Nat) (h : idx < n) :
    coerceCell cols header (values.take n) idx = coerceCell cols header values idx := by
  unfold coerceCell rawCell
  rw [List.getElem?_take_of_lt h]

theorem mkGridRowAux_take (cols : List ColumnSchema) (values : List String)
    (headers : List String) (idx n : Nat) (obj : GridRow)
    (h : idx + headers.length ≤ n) :
    mkGridRowAux cols (values.take n) headers idx obj =
      mkGridRowAux cols values headers idx obj := by
  induction headers generalizing idx obj with
  | nil => rfl
  | cons hd rest ih =>
    simp only [List.length_cons] at h
    simp only [mkGridRowAux]
    rw [coerceCell_take cols hd values n idx (by omega)]
    exact ih (idx + 1) _ (by omega)

/-- C10: fields beyond the header count are silently discarded: a
materialized row equals the row materialized from only the first
`headers.length` fields, and its key set is exactly the set of header
names. -/
theorem extra_fields_discarded (cols : List ColumnSchema) (headers : List String)
    (values : List String) (h : headers.length < values.length) :
    mkGridRow cols headers values = mkGridRow cols headers (values.take headers.length) ∧
    ∀ k, (k ∈ (mkGridRow cols headers values).map Prod.fst ↔ k ∈ headers) := by
  constructor
  · unfold mkGridRow
    exact (mkGridRowAux_take cols values headers 0 headers.length [] (by omega)).symm
  · intro k
    unfold mkGridRow
    rw [mem_keys_mkGridRowAux]
    simp

/-- Witness for `extra_fields_discarded`: a row with two fields against one
header materializes identically to its one-field truncation. -/
theorem extra_fields_discarded_witness :
    mkGridRow [] ["a"] ["1", "2"] = mkGridRow [] ["a"] (["1", "2"].take 1) :=
  (extra_fields_discarded [] ["a"] ["1", "2"] (by decide)).1

/-- C2 counterexample: a successfully materialized grid whose header row
repeats a name has one GridColumn per header occurrence, not per distinct
header string — two columns against one distinct header. -/
theorem grid_column_count_cex :
    (Except.toOption (buildGrid "a,a\n1,2" ⟨[]⟩)).isSome = true ∧
    headersOf "a,a\n1,2" = ["a", "a"] ∧
    (gridColumnsOf "a,a\n1,2" ⟨[]⟩).length = 2 ∧
    (headersOf "a,a\n1,2").dedup.length = 1 ∧
    (gridColumnsOf "a,a\n1,2" ⟨[]⟩).length ≠ (headersOf "a,a\n1,2").dedup.length := by
  decide

/-- C2 (amended): for every materialized grid, the number of GridColumn
entries equals the number of header entries of the first non-empty row
(duplicates included, one column per header occurrence), and every grid row
has a value (possibly null) for every header. -/
theorem grid_shape_amended (t : String) (schema : SchemaResponse) :
    (gridColumnsOf t schema).length = (headersOf t).length ∧
    ∀ row ∈ gridRowsOf t schema, ∀ hd ∈ headersOf t,
      (lookupKey row hd).isSome = true := by
  constructor
  · unfold gridColumnsOf
    rw [List.length_map]
  · intro row hrow hd hhd
    rcases List.mem_map.mp hrow with ⟨line, hline, rfl⟩
    rw [lookupKey_isSome_iff]
    unfold mkGridRow
    rw [mem_keys_mkGridRowAux]
    exact Or.inl hhd

/-- Witness for `grid_shape_amended`: in a concrete grid the first data row
has a value for the first header. -/
theorem grid_shape_amended_witness :
    (lookupKey
      (mkGridRow [] (headersOf "a,b\n1,2")
        (jsSplit (detectDelimiter "a,b\n1,2") "1,2")) "a").isSome = true :=
  (grid_shape_amended "a,b\n1,2" ⟨[]⟩).2 _ (by decide) "a" (by decide)

theorem parseIntJs_range (s : String) :
    parseIntJs s = JsValue.vNaN ∨ ∃ n : Int, parseIntJs s = JsValue.vInt n := by
  unfold parseIntJs
  dsimp only
  split
  · exact Or.inl rfl
  · exact Or.inr ⟨_, rfl⟩

theorem parseFloatJs_range (s : String) :
    parseFloatJs s = JsValue.vNaN ∨
      (∃ q : Rat, parseFloatJs s = JsValue.vNum q) ∨
      (∃ b : Bool, parseFloatJs s = JsValue.vInf b) := by
  unfold parseFloatJs
  dsimp only
  split
  · exact Or.inr (Or.inr ⟨_, rfl⟩)
  · split
    · exact Or.inl rfl
    · exact Or.inr (Or.inl ⟨_, rfl⟩)

/-- C1 counterexample: an INTEGER column over the unparsable non-empty text
`abc` stores `NaN`, not `null` — `parseInt('abc', 10)` is `NaN` and the
materializer stores it as is, contradicting the claim that unparsable text
yields null. -/
theorem cell_coercion_null_claim_cex :
    mkGridRow [⟨"v", "INTEGER", ""⟩] ["v"] ["abc"] = [("v", JsValue.vNaN)] ∧
    coerceCell [⟨"v", "INTEGER", ""⟩] "v" ["abc"] 0 = JsValue.vNaN ∧
    JsValue.vNaN ≠ JsValue.vNull := by
  decide

/-- C1 (amended): cell coercion never throws (it is a total function) and,
taking the raw field string (empty when the row ran short): an INTEGER
column yields null exactly on empty text and otherwise stores the
`parseInt` result — the signed value of the leading digit prefix, or `NaN`
(not null) when no digits lead; a NUMERIC column yields null exactly on
empty text and otherwise stores the `parseFloat` result — a number, signed
infinity, or `NaN` (not null) when no numeric prefix exists; every other
column passes the trimmed string through unchanged, the empty string staying
an empty string rather than null. -/
theorem cell_coercion_amended (cols : List ColumnSchema) (header : String)
    (values : List String) (idx : Nat) :
    (resolvedType cols header = some "INTEGER" →
      (coerceCell cols header values idx = JsValue.vNull ↔ rawCell values idx = "") ∧
      (rawCell values idx ≠ "" →
        coerceCell cols header values idx = parseIntJs (rawCell values idx) ∧
        (parseIntJs (rawCell values idx) = JsValue.vNaN ∨
          ∃ n : Int, parseIntJs (rawCell values idx) = JsValue.vInt n))) ∧
    (resolvedType cols header = some "NUMERIC" →
      (coerceCell cols header values idx = JsValue.vNull ↔ rawCell values idx = "") ∧
      (rawCell values idx ≠ "" →
        coerceCell cols header values idx = parseFloatJs (rawCell values idx) ∧
        (parseFloatJs (rawCell values idx) = JsValue.vNaN ∨
          (∃ q : Rat, parseFloatJs (rawCell values idx) = JsValue.vNum q) ∨
          (∃ b : Bool, parseFloatJs (rawCell values idx) = JsValue.vInf b)))) ∧
    (resolvedType cols header ≠ some "INTEGER" →
      resolvedType cols header ≠ some "NUMERIC" →
      coerceCell cols header values idx = JsValue.vStr (rawCell values idx)) := by
  refine ⟨?_, ?_, ?_⟩
  · intro hInt
    simp only [coerceCell, if_pos hInt]
    constructor
    · by_cases hraw : rawCell values idx = ""
      · simp [hraw]
      · rw [if_neg hraw]
        constructor
        · intro hnull
          rcases parseIntJs_range (rawCell values idx) with h1 | ⟨n, h1⟩ <;>
            rw [h1] at hnull <;> exact JsValue.noConfusion hnull
        · intro hraw'
          exact absurd hraw' hraw
    · intro hraw
      rw [if_neg hraw]
      exact ⟨rfl, parseIntJs_range _⟩
  · intro hNum
    have hne : resolvedType cols header ≠ some "INTEGER" := by
      rw [hNum]
      decide
    simp only [coerceCell, if_neg hne, if_pos hNum]
    constructor
    · by_cases hraw : rawCell values idx = ""
      · simp [hraw]
      · rw [if_neg hraw]
        constructor
        · intro hnull
          rcases parseFloatJs_range (rawCell values idx) with h1 | ⟨q, h1⟩ | ⟨b, h1⟩ <;>
            rw [h1] at hnull <;> exact JsValue.noConfusion hnull
        · intro hraw'
          exact absurd hraw' hraw
    · intro hraw
      rw [if_neg hraw]
      exact ⟨rfl, parseFloatJs_range _⟩
  · intro h1 h2
    simp only [coerceCell, if_neg h1, if_neg h2]

/-- Witness for `cell_coercion_amended`: on the INTEGER column `v` with raw
text `abc`, the stored parse result is `NaN` or an integer. -/
theorem cell_coercion_amended_witness :
    parseIntJs (rawCell ["abc"] 0) = JsValue.vNaN ∨
      ∃ n : Int, parseIntJs (rawCell ["abc"] 0) = JsValue.vInt n :=
  (((cell_coercion_amended [⟨"v", "INTEGER", ""⟩] "v" ["abc"] 0).1
    (by decide)).2 (by decide)).2

/-- C4 counterexample: on an input with five non-empty data rows the sample
sent to the inference client is `allRows.slice(0, 5).join('\n')` — the
header plus only the first four data rows — not the header joined with the
first five data rows. -/
theorem sample_rows_cex :
    ((allRows "h\nd1\nd2\nd3\nd4\nd5").drop 1).length = 5 ∧
    sampleDataOf "h\nd1\nd2\nd3\nd4\nd5" = "h\nd1\nd2\nd3\nd4" ∧
    sampleDataOf "h\nd1\nd2\nd3\nd4\nd5" ≠
      String.intercalate "\n"
        ((allRows "h\nd1\nd2\nd3\nd4\nd5").headD "" ::
          ((allRows "h\nd1\nd2\nd3\nd4\nd5").drop 1).take 5) := by
  decide

/-- C4 (amended): for every input with at least five non-empty data rows
after the header, the sample string passed to the schema-inference client
consists of the header row joined (with newlines) with the first four data
rows, i.e. the first five non-empty rows overall. -/
theorem sample_rows_amended (t : String) (h : 6 ≤ (allRows t).length) :
    sampleDataOf t =
      String.intercalate "\n"
        ((allRows t).headD "" :: ((allRows t).drop 1).take 4) := by
  unfold sampleDataOf
  rcases hr : allRows t with _ | ⟨r, rest⟩
  · rw [hr] at h
    simp at h
  · congr 1

/-- Witness for `sample_rows_amended` at a concrete six-row input. -/
theorem sample_rows_amended_witness :
    sampleDataOf "h\nd1\nd2\nd3\nd4\nd5" =
      String.intercalate "\n"
        ((allRows "h\nd1\nd2\nd3\nd4\nd5").headD "" ::
          ((allRows "h\nd1\nd2\nd3\nd4\nd5").drop 1).take 4) :=
  sample_rows_amended "h\nd1\nd2\nd3\nd4\nd5" (by decide)

end RexDB
